import Mathlib

/-!
Verification development for the BingX-to-Discord polling bot (src/main.py).

The development shallowly embeds the bot core: the request signer
(BingXBot.sign_request), the API client (BingXBot.make_request and the
endpoint wrappers), the event formatter (BingXBot.format_trade_message),
the polling cycle (BingXBot.fetch_trades) and the inbound command handler
branch for "!positions" (BingXBot.on_message).

Modelling conventions:
- JSON values parsed from API responses are the mutual inductive family
  JVal / JArr / JObj.  Python dicts are association lists in insertion
  order (Python dicts preserve insertion order; updating an existing key
  keeps its position).
- Machine-level effects are passed in explicitly: wall-clock time is a
  parameter "now" in epoch seconds (all time.time() calls within one
  operation are modelled as the same instant), and the HTTP layer
  (aiohttp session plus json.loads) is a function from the built request
  to an outcome.  An outcome is either a status code with an
  Option-valued parsed body (none when the body text is not valid JSON,
  in which case json.loads raises) or "raised" for a transport failure.
- A Python str that may fail to UTF-8-encode (a lone surrogate, the only
  internal failure mode of sign_request reachable through its body) is
  modelled by the structure PyStr: the carried text plus an "enc" flag;
  encoding a concatenation succeeds iff every part is encodable.
- Fallible Python code is embedded with Except; the error value carries
  the state mutated before the exception was raised, because the caller
  of fetch_trades catches the exception after those mutations persist.
- The iteration order of a Python set is implementation-defined.  Where
  the code converts the dedup set to a list (the cache-trim step), the
  embedding takes an enumeration function "enum" as a parameter; any
  permutation of the underlying elements is a legal enumeration.
- HMAC-SHA-256 is implemented in full (namespace Crypto below) so that
  signatures are the actual lowercase hex digests the code computes.
-/

namespace Crypto

/-- Word arithmetic is carried out on Nat modulo 2^32. -/
def M32 : Nat := 4294967296

def rotr (n w : Nat) : Nat := ((w >>> n) ||| (w <<< (32 - n))) % M32

/-- The 64 SHA-256 round constants. -/
def K : List Nat :=
  [1116352408, 1899447441, 3049323471, 3921009573, 961987163, 1508970993,
   2453635748, 2870763221, 3624381080, 310598401, 607225278, 1426881987,
   1925078388, 2162078206, 2614888103, 3248222580, 3835390401, 4022224774,
   264347078, 604807628, 770255983, 1249150122, 1555081692, 1996064986,
   2554220882, 2821834349, 2952996808, 3210313671, 3336571891, 3584528711,
   113926993, 338241895, 666307205, 773529912, 1294757372, 1396182291,
   1695183700, 1986661051, 2177026350, 2456956037, 2730485921, 2820302411,
   3259730800, 3345764771, 3516065817, 3600352804, 4094571909, 275423344,
   430227734, 506948616, 659060556, 883997877, 958139571, 1322822218,
   1537002063, 1747873779, 1955562222, 2024104815, 2227730452, 2361852424,
   2428436474, 2756734187, 3204031479, 3329325298]

/-- The SHA-256 initial hash state. -/
def H0 : List Nat :=
  [1779033703, 3144134277, 1013904242, 2773480762,
   1359893119, 2600822924, 528734635, 1541459225]

/-- Big-endian 8-byte encoding of the bit length. -/
def lenBytes (bits : Nat) : List Nat :=
  (List.range 8).map (fun i => (bits >>> (8 * (7 - i))) % 256)

/-- Merkle-Damgard padding: 0x80, zeros to 56 mod 64, 8-byte bit length. -/
def pad (msg : List Nat) : List Nat :=
  let L := msg.length
  let z := (64 + 56 - ((L + 1) % 64)) % 64
  msg ++ [0x80] ++ List.replicate z 0 ++ lenBytes (8 * L)

/-- Group bytes into big-endian 32-bit words. -/
def toWords : List Nat → List Nat
  | b0 :: b1 :: b2 :: b3 :: rest => (((b0 * 256 + b1) * 256 + b2) * 256 + b3) :: toWords rest
  | _ => []

def chunksGo : Nat → List Nat → List (List Nat)
  | 0, _ => []
  | _, [] => []
  | fuel + 1, l => l.take 16 :: chunksGo fuel (l.drop 16)

/-- Split a word list into 16-word blocks. -/
def chunks (l : List Nat) : List (List Nat) := chunksGo l.length l

def sig0 (w : Nat) : Nat := ((rotr 7 w) ^^^ (rotr 18 w)) ^^^ (w >>> 3)

def sig1 (w : Nat) : Nat := ((rotr 17 w) ^^^ (rotr 19 w)) ^^^ (w >>> 10)

/-- One step of the message-schedule extension. -/
def extendStep (w : List Nat) : List Nat :=
  let n := w.length
  w ++ [(sig1 (w.getD (n - 2) 0) + w.getD (n - 7) 0 + sig0 (w.getD (n - 15) 0) +
         w.getD (n - 16) 0) % M32]

/-- Extend a 16-word block to the 64-word message schedule. -/
def fullW (w16 : List Nat) : List Nat :=
  (List.range 48).foldl (fun w _ => extendStep w) w16

/-- One SHA-256 compression round on the state [a, b, c, d, e, f, g, h]. -/
def round (st : List Nat) (k w : Nat) : List Nat :=
  match st with
  | [a, b, c, d, e, f, g, h] =>
    let S1 := ((rotr 6 e) ^^^ (rotr 11 e)) ^^^ (rotr 25 e)
    let ch := ((e &&& f) ^^^ ((e ^^^ 0xffffffff) &&& g)) % M32
    let t1 := (h + S1 + ch + k + w) % M32
    let S0 := ((rotr 2 a) ^^^ (rotr 13 a)) ^^^ (rotr 22 a)
    let mj := ((a &&& b) ^^^ (a &&& c)) ^^^ (b &&& c)
    let t2 := (S0 + mj) % M32
    [(t1 + t2) % M32, a, b, c, (d + t1) % M32, e, f, g]
  | _ => st

/-- Compress one 16-word block into the running hash state. -/
def compress (h : List Nat) (block : List Nat) : List Nat :=
  let w := fullW block
  let st := (K.zip w).foldl (fun s kw => round s kw.1 kw.2) h
  (h.zip st).map (fun p => (p.1 + p.2) % M32)

def wordBytes (w : Nat) : List Nat :=
  [(w >>> 24) % 256, (w >>> 16) % 256, (w >>> 8) % 256, w % 256]

/-- SHA-256 of a byte list, as a 32-byte list. -/
def sha256 (msg : List Nat) : List Nat :=
  let blocks := chunks (toWords (pad msg))
  (blocks.foldl compress H0).foldr (fun w acc => wordBytes w ++ acc) []

def hexDigit (n : Nat) : Char := if n < 10 then Char.ofNat (48 + n) else Char.ofNat (87 + n)

/-- Lowercase hex rendering of a byte list (hashlib hexdigest). -/
def hexStr (bytes : List Nat) : String :=
  String.mk (bytes.foldr (fun b acc => hexDigit (b / 16) :: hexDigit (b % 16) :: acc) [])

/-- UTF-8 encoding of one scalar value. -/
def utf8Char (c : Char) : List Nat :=
  let n := c.toNat
  if n < 0x80 then [n]
  else if n < 0x800 then [0xC0 ||| (n >>> 6), 0x80 ||| (n &&& 0x3F)]
  else if n < 0x10000 then
    [0xE0 ||| (n >>> 12), 0x80 ||| ((n >>> 6) &&& 0x3F), 0x80 ||| (n &&& 0x3F)]
  else
    [0xF0 ||| (n >>> 18), 0x80 ||| ((n >>> 12) &&& 0x3F), 0x80 ||| ((n >>> 6) &&& 0x3F),
     0x80 ||| (n &&& 0x3F)]

/-- UTF-8 encoding of a string. -/
def utf8 (s : String) : List Nat := s.data.foldr (fun c acc => utf8Char c ++ acc) []

/-- HMAC-SHA-256 (hmac.new(key, msg, hashlib.sha256), block size 64). -/
def hmacSha256 (key msg : List Nat) : List Nat :=
  let k0 := if key.length > 64 then sha256 key else key
  let kp := k0 ++ List.replicate (64 - k0.length) 0
  sha256 ((kp.map (fun b => b ^^^ 0x5c)) ++ sha256 ((kp.map (fun b => b ^^^ 0x36)) ++ msg))

/-- hmac.new(key.encode(), msg.encode(), hashlib.sha256).hexdigest(). -/
def hmacHex (key msg : String) : String := hexStr (hmacSha256 (utf8 key) (utf8 msg))

end Crypto

/-! ## JSON values (the shapes json.loads can return) -/

mutual

/-- A parsed JSON value (result of json.loads). -/
inductive JVal where
  | null
  | bool (b : Bool)
  | int (n : Int)
  | str (s : String)
  | arr (xs : JArr)
  | obj (fs : JObj)
deriving DecidableEq, Repr

/-- A JSON array. -/
inductive JArr where
  | nil
  | cons (hd : JVal) (tl : JArr)
deriving DecidableEq, Repr

/-- A JSON object: key-value pairs in document order. -/
inductive JObj where
  | nil
  | cons (key : String) (val : JVal) (tl : JObj)
deriving DecidableEq, Repr

end

/-- Build an object from a list of fields. -/
def jobj (l : List (String × JVal)) : JVal :=
  .obj (l.foldr (fun p acc => .cons p.1 p.2 acc) .nil)

/-- Build an array from a list of values. -/
def jarr (l : List JVal) : JVal := .arr (l.foldr .cons .nil)

/-- dict.get(key): the value at the first matching key, if any. -/
def JObj.get : JObj → String → Option JVal
  | .nil, _ => none
  | .cons key v tl, k => if key == k then some v else JObj.get tl k

/-- dict.get(key, default). -/
def jgetD (fs : JObj) (k : String) (d : JVal) : JVal := (JObj.get fs k).getD d

/-- key in dict. -/
def JObj.hasKey : JObj → String → Bool
  | .nil, _ => false
  | .cons key _ tl, k => key == k || JObj.hasKey tl k

/-- Python == on the values compared by the embedded code: ints,
strings, None and booleans compare as in Python, including the numeric
cross-type equalities True == 1 and False == 0.  Between two arrays or
two objects structural equality is used; Python additionally applies
the bool/int coercion inside containers and ignores key order between
dicts, but every comparison the embedded code performs has a string or
a hashable scalar on one side, where the two notions agree. -/
def pyEq (a b : JVal) : Bool :=
  match a, b with
  | .bool x, .int m => decide ((if x then (1 : Int) else 0) = m)
  | .int n, .bool y => decide (n = (if y then (1 : Int) else 0))
  | a, b => decide (a = b)

/-- Hashability of a JSON value: lists and dicts are unhashable, so a
set-membership test on them raises TypeError. -/
def hashable : JVal → Bool
  | .arr _ => false
  | .obj _ => false
  | _ => true

/-- value in list (Python == on the elements). -/
def jarrHas : JArr → JVal → Bool
  | .nil, _ => false
  | .cons h tl, v => pyEq h v || jarrHas tl v

/-- Substring test (Python "needle in haystack" on str). -/
def strContains (hay needle : String) : Bool :=
  hay.data.tails.any (fun t => needle.data.isPrefixOf t)

/-- Python truthiness of a JSON value. -/
def truthy : JVal → Bool
  | .null => false
  | .bool b => b
  | .int n => decide (n ≠ 0)
  | .str s => !(s == "")
  | .arr .nil => false
  | .arr _ => true
  | .obj .nil => false
  | .obj _ => true

/-- Python "key in value".  For a dict this is key membership, for a list
element equality against the string, for a str a substring test; for the
remaining shapes the "in" operator raises TypeError (none). -/
def pyIn (k : String) (v : JVal) : Option Bool :=
  match v with
  | .obj fs => some (JObj.hasKey fs k)
  | .arr xs => some (jarrHas xs (.str k))
  | .str s => some (strContains s k)
  | _ => none

mutual

/-- Python repr of a JSON value (repr escaping of quotes inside strings
is not modelled; no claim exercises it). -/
def pyRepr : JVal → String
  | .null => "None"
  | .bool b => if b then "True" else "False"
  | .int n => toString n
  | .str s => "\x27" ++ s ++ "\x27"
  | .arr xs => "[" ++ pyReprArr xs ++ "]"
  | .obj fs => "\x7b" ++ pyReprObj fs ++ "\x7d"

def pyReprArr : JArr → String
  | .nil => ""
  | .cons x .nil => pyRepr x
  | .cons x tl => pyRepr x ++ ", " ++ pyReprArr tl

def pyReprObj : JObj → String
  | .nil => ""
  | .cons k v .nil => "\x27" ++ k ++ "\x27: " ++ pyRepr v
  | .cons k v tl => "\x27" ++ k ++ "\x27: " ++ pyRepr v ++ ", " ++ pyReprObj tl

end

/-- Python str() of a JSON value, as used by f-string interpolation. -/
def pyToStr : JVal → String
  | .str s => s
  | v => pyRepr v

/-- Digit-string value; none unless the list is nonempty and all digits. -/
def digitsVal : List Char → Option Nat
  | [] => none
  | cs =>
    cs.foldl
      (fun acc c =>
        match acc with
        | none => none
        | some n => if 48 ≤ c.toNat && c.toNat ≤ 57 then some (n * 10 + (c.toNat - 48)) else none)
      (some 0)

/-- Python int(str): optional sign then decimal digits (int() raises
ValueError otherwise; whitespace stripping and non-decimal bases are not
modelled). -/
def parseIntStr (s : String) : Option Int :=
  match s.data with
  | [] => none
  | c :: rest =>
    if c.toNat == 45 then (digitsVal rest).map (fun n => -(Int.ofNat n))
    else if c.toNat == 43 then (digitsVal rest).map Int.ofNat
    else (digitsVal (c :: rest)).map Int.ofNat

/-- Python int(v) on a JSON value: ints pass through, bools become 0/1,
strings are parsed; None, lists and dicts raise (none). -/
def pyInt : JVal → Option Int
  | .int n => some n
  | .bool b => some (if b then 1 else 0)
  | .str s => parseIntStr s
  | _ => none

def allDigits (cs : List Char) : Bool := cs.all (fun c => 48 ≤ c.toNat && c.toNat ≤ 57)

def digitsNat (cs : List Char) : Nat := cs.foldl (fun n c => n * 10 + (c.toNat - 48)) 0

/-- Python float(str) restricted to plain decimal literals (optional sign,
digits, optional fractional part; exponent notation is not modelled).
The result is (numerator, scale) with value numerator / 10 ^ scale. -/
def parseFloatStr (s : String) : Option (Int × Nat) :=
  let cs := s.data
  let sb : Int × List Char :=
    match cs with
    | c :: rest =>
      if c.toNat == 45 then (-1, rest)
      else if c.toNat == 43 then (1, rest)
      else (1, cs)
    | [] => (1, [])
  let sgn := sb.1
  let body := sb.2
  let ip := body.takeWhile (fun c => c.toNat != 46)
  let rest := body.dropWhile (fun c => c.toNat != 46)
  match rest with
  | [] =>
    if body.isEmpty || !(allDigits body) then none
    else some (sgn * Int.ofNat (digitsNat body), 0)
  | _ :: fp =>
    if fp.any (fun c => c.toNat == 46) then none
    else if ip.isEmpty && fp.isEmpty then none
    else if allDigits ip && allDigits fp then
      some (sgn * Int.ofNat (digitsNat ip * 10 ^ fp.length + digitsNat fp), fp.length)
    else none

/-- Python float(v) on a JSON value, as (numerator, scale). -/
def pyFloatOf : JVal → Option (Int × Nat)
  | .int n => some (n, 0)
  | .bool b => some (if b then 1 else 0, 0)
  | .str s => parseFloatStr s
  | _ => none

/-! ## Request parameters and the signer (BingXBot.sign_request, lines 49-60) -/

/-- A Python str destined for UTF-8 encoding: the carried text plus a flag
recording whether .encode("utf-8") succeeds (false models a string
holding a lone surrogate, the internal failure mode the try/except of
sign_request guards against). -/
structure PyStr where
  s : String
  enc : Bool
deriving DecidableEq, Repr

/-- An ordinary, encodable string literal. -/
def PyStr.lit (x : String) : PyStr := ⟨x, true⟩

/-- dict lookup: the value at the key, if present. -/
def dictGet {α : Type} (d : List (String × α)) (k : String) : Option α :=
  (d.find? (fun p => p.1 == k)).map (fun p => p.2)

/-- dict lookup with default. -/
def dictGetD {α : Type} (d : List (String × α)) (k : String) (dflt : α) : α :=
  (dictGet d k).getD dflt

/-- dict assignment d[k] = v: replace in place if the key exists (Python
dicts keep the original position on update), else append. -/
def dictSet {α : Type} (d : List (String × α)) (k : String) (v : α) : List (String × α) :=
  if d.any (fun p => p.1 == k) then d.map (fun p => if p.1 == k then (k, v) else p)
  else d ++ [(k, v)]

/-- dict.keys() in insertion order. -/
def dictKeys {α : Type} (d : List (String × α)) : List String := d.map (fun p => p.1)

/-- Code-point lexicographic order on char lists (Python str comparison). -/
def lexLe : List Char → List Char → Bool
  | [], _ => true
  | _ :: _, [] => false
  | a :: as, b :: bs =>
    if a.toNat < b.toNat then true
    else if b.toNat < a.toNat then false
    else lexLe as bs

def strLeb (a b : String) : Bool := lexLe a.data b.data

def insertSorted (x : String) : List String → List String
  | [] => [x]
  | y :: ys => if strLeb x y then x :: y :: ys else y :: insertSorted x ys

/-- sorted(keys): insertion sort under Python string comparison. -/
def sortStr (l : List String) : List String := l.foldr insertSorted []

/-- "&".join of parts; the join is encodable iff every part is. -/
def pyJoin (sep : String) : List PyStr → PyStr
  | [] => PyStr.lit ""
  | p :: ps => ps.foldl (fun a q => PyStr.mk (a.s ++ sep ++ q.s) (a.enc && q.enc)) p

/-- The serialized signing input of sign_request:
"&".join(f"key=value" for key in sorted(params.keys())).
Every key present in params is serialized; there is no exclusion of any
particular key. -/
def queryString (params : List (String × PyStr)) : PyStr :=
  let ks := sortStr (dictKeys params)
  pyJoin "&" (ks.map (fun k =>
    let v := dictGetD params k (PyStr.lit "")
    PyStr.mk (k ++ "=" ++ v.s) v.enc))

/-- BingXBot.sign_request: HMAC-SHA-256 hex digest of the serialized
sorted parameters; on an internal failure (the UnicodeEncodeError raised
when query_string.encode("utf-8") hits a lone surrogate) the except
branch returns the empty string. -/
def signRequest (secret : String) (params : List (String × PyStr)) : String :=
  let qs := queryString params
  if qs.enc then Crypto.hmacHex secret qs.s else ""

/-! ## The API client (BingXBot.make_request, lines 62-90) -/

/-- The HTTP GET handed to the aiohttp session: url, query parameters and
the X-BX-APIKEY header value. -/
structure HttpReq where
  url : String
  qparams : List (String × PyStr)
  apiKey : String
deriving DecidableEq, Repr

/-- What the HTTP layer (session.get plus json.loads) yields: a status
code with the parsed body (none when the body text is not valid JSON, in
which case json.loads raises), or a raised transport error (timeout,
connection refused, DNS failure). -/
inductive HttpOutcome where
  | resp (status : Nat) (body : Option JVal)
  | raised
deriving DecidableEq, Repr

def BASE_URL : String := "https://open-api.bingx.com"

/-- The response handling of make_request: status 200 returns the parsed
body (None when json.loads raised, through the same except branch);
every non-200 status returns None; a raised transport error returns
None.  No status, body or cause survives into the return value. -/
def handleOutcome : HttpOutcome → Option JVal
  | .raised => none
  | .resp s b => if s == 200 then b else none

/-- BingXBot.make_request: assign params["timestamp"], compute
params["sign"] = sign_request(params) (the dict does not yet hold a
"sign" key at that point unless the caller supplied one), build the GET
and hand it to the HTTP layer unconditionally - there is no check on the
computed signature.  Returns the parsed response (or None) together with
the request handed to the HTTP layer. -/
def makeRequestT (secret apiKey endpoint : String) (params : List (String × PyStr))
    (now : Nat) (net : HttpReq → HttpOutcome) : Option JVal × HttpReq :=
  let p1 := dictSet params "timestamp" (PyStr.lit (toString (now * 1000)))
  let p2 := dictSet p1 "sign" (PyStr.lit (signRequest secret p1))
  let req : HttpReq := ⟨BASE_URL ++ "/" ++ endpoint, p2, apiKey⟩
  (handleOutcome (net req), req)

/-- The Optional[dict] value make_request returns to its caller. -/
def makeRequest (secret apiKey endpoint : String) (params : List (String × PyStr))
    (now : Nat) (net : HttpReq → HttpOutcome) : Option JVal :=
  (makeRequestT secret apiKey endpoint params now net).1

def OPEN_ORDERS_EP : String := "openApi/swap/v2/trade/openOrders"

def POSITIONS_EP : String := "openApi/swap/v2/user/positions"

def TPSL_EP : String := "openApi/swap/v2/user/orders"

/-- BingXBot.get_recent_trades (lines 92-102): the open-orders query of
one poll cycle. -/
def getRecentTradesParams (now : Nat) : List (String × PyStr) :=
  [("symbol", PyStr.lit "BTC-USDT"),
   ("orderId", PyStr.lit ""),
   ("startTime", PyStr.lit (toString (((now : Int) - 3600) * 1000))),
   ("endTime", PyStr.lit (toString (now * 1000))),
   ("limit", PyStr.lit "50")]

def getRecentTrades (secret apiKey : String) (now : Nat)
    (net : HttpReq → HttpOutcome) : Option JVal × HttpReq :=
  makeRequestT secret apiKey OPEN_ORDERS_EP (getRecentTradesParams now) now net

/-- BingXBot.get_positions (lines 210-214). -/
def getPositions (secret apiKey : String) (now : Nat)
    (net : HttpReq → HttpOutcome) : Option JVal × HttpReq :=
  makeRequestT secret apiKey POSITIONS_EP [("symbol", PyStr.lit "BTC-USDT")] now net

/-- BingXBot.get_tp_sl_orders (lines 216-219). -/
def getTpSlOrders (secret apiKey : String) (now : Nat)
    (net : HttpReq → HttpOutcome) : Option JVal × HttpReq :=
  makeRequestT secret apiKey TPSL_EP [("symbol", PyStr.lit "BTC-USDT")] now net

/-! ## The event formatter (BingXBot.format_trade_message, lines 104-114) -/

/-- Python exception kinds relevant to the embedded code paths. -/
inductive PyErr where
  | typeError
  | attributeError
  | valueError
deriving DecidableEq, Repr

/-- int(x / 1000) for an int x: float division then int() truncation
toward zero, written over Nat to fix the rounding unambiguously. -/
def truncDiv1000 (n : Int) : Int :=
  if 0 ≤ n then Int.ofNat (n.toNat / 1000) else -Int.ofNat ((-n).toNat / 1000)

/-- The f-string text of format_trade_message. -/
def msgText (sym price qty typ dir : String) (t : Int) : String :=
  "🔄 **Nueva operación de futuros detectada:**\n" ++
  "📊 **Símbolo:** " ++ sym ++ "\n" ++
  "💰 **Precio:** " ++ price ++ "\n" ++
  "📈 **Cantidad:** " ++ qty ++ "\n" ++
  "📍 **Tipo:** " ++ typ ++ "\n" ++
  "🎯 **Dirección:** " ++ dir ++ "\n" ++
  "⏰ **Tiempo:** <t:" ++ toString t ++ ":F>\n"

/-- BingXBot.format_trade_message.  Missing symbol/price/quantity/type
fields fall back to "N/A"; the direction reads "Long" exactly when
trade.get("side") == "BUY" and "Short" otherwise.  The timestamp token
is int(int(trade.get("time", time.time())) / 1000): with a time field
the parsed value divided by 1000; without one the current epoch seconds
divided by 1000.  A non-dict argument raises AttributeError on .get; an
unparsable time field makes int() raise. -/
def formatTradeMessage (now : Nat) (t : JVal) : Except PyErr String :=
  match t with
  | .obj fs =>
    let sym := pyToStr (jgetD fs "symbol" (.str "N/A"))
    let price := pyToStr (jgetD fs "price" (.str "N/A"))
    let qty := pyToStr (jgetD fs "quantity" (.str "N/A"))
    let typ := pyToStr (jgetD fs "type" (.str "N/A"))
    let dir : String :=
      match JObj.get fs "side" with
      | some (.str s) => if s == "BUY" then "Long" else "Short"
      | _ => "Short"
    match JObj.get fs "time" with
    | some v =>
      match pyInt v with
      | some n => .ok (msgText sym price qty typ dir (truncDiv1000 n))
      | none => .error .valueError
    | none => .ok (msgText sym price qty typ dir (Int.ofNat (now / 1000)))
  | _ => .error .attributeError

/-! ## The dedup cache (processed_trades, lines 44 and 131-139)

The Python set of already-announced order ids is modelled as the list of
its elements in insertion order; set membership is Python == (decidable
equality on JVal).  list(s) enumerates a set in an implementation-defined
order, so the trim step takes an enumeration function as a parameter:
any permutation of the elements is a legal enumeration. -/

def MAX_CACHE : Nat := 1000

/-- One record operation of the dedup cache: the guarded
processed_trades.add(trade_id) of the poll loop. -/
def record (c : List JVal) (id : JVal) : List JVal :=
  if id ∈ c then c else c ++ [id]

/-- A sequence of record operations. -/
def insertAll (c : List JVal) (ids : List JVal) : List JVal := ids.foldl record c

/-- The cache-size cap of fetch_trades (lines 137-139):
if len(s) > 1000 then s = set(list(s)[-1000:]).  The kept elements are
the last MAX_CACHE entries of the enumeration list(s). -/
def trimCache (enum : List JVal → List JVal) (c : List JVal) : List JVal :=
  if c.length > MAX_CACHE then (enum c).drop ((enum c).length - MAX_CACHE) else c

/-! ## The poll cycle (BingXBot.fetch_trades, lines 116-142) -/

/-- The per-trade step of the poll loop.  The state is (cache, messages
sent so far).  The guard "trade_id and trade_id not in processed_trades"
short-circuits on a falsy id; on a truthy unhashable id (a JSON array
or object) the set-membership test itself raises TypeError, so nothing
is recorded or delivered and the loop aborts; otherwise membership is
Python == against the cached ids.  An exception mid-step (non-dict
trade, the unhashable membership test, or a formatting failure after
the id was already added) surfaces as .error carrying the state as
mutated so far, because fetch_trades catches it outside the loop and
the prior sends and cache insertions persist. -/
def processTrade (now : Nat) (st : List JVal × List String) (t : JVal) :
    Except (List JVal × List String) (List JVal × List String) :=
  match t with
  | .obj fs =>
    match JObj.get fs "orderId" with
    | none => .ok st
    | some tid =>
      if truthy tid then
        if hashable tid then
          if st.1.any (pyEq tid) then .ok st
          else
            match formatTradeMessage now t with
            | .ok m => .ok (st.1 ++ [tid], st.2 ++ [m])
            | .error _ => .error (st.1 ++ [tid], st.2)
        else .error st
      else .ok st
  | _ => .error st

/-- The poll loop over the orderList array. -/
def processAll (now : Nat) : JArr → (List JVal × List String) →
    Except (List JVal × List String) (List JVal × List String)
  | .nil, st => .ok st
  | .cons t tl, st =>
    match processTrade now st t with
    | .ok st2 => processAll now tl st2
    | .error st2 => .error st2

/-- The observable outcome of one poll cycle: the dedup cache afterwards,
the messages delivered to the channel in order, and the endpoints the
cycle requested from the API client. -/
structure CycleOut where
  cache : List JVal
  sent : List String
  apiCalls : List String
deriving DecidableEq, Repr

/-- The body of one poll cycle after the channel is resolved and the
open-orders response obtained: the dedup cache afterwards and the
messages delivered, in order.  A falsy response or one whose "data"
membership test is not affirmative contributes nothing.  Iterating
data.get("orderList", []): an array runs the loop and, unless the loop
raised, the cache cap; a falsy iterable orderList (empty dict, empty
string) runs zero iterations and still reaches the cache cap; every
other shape raises on iteration, or on the first produced item, before
any mutation, so it reaches the enclosing except with the cache
unchanged and the cap skipped (non-empty dicts yield string keys and
non-empty strings yield character strings, whose .get raises
AttributeError; the remaining shapes are not iterable). -/
def cycleBody (enum : List JVal → List JVal) (now : Nat) (resp : Option JVal)
    (cache : List JVal) : List JVal × List String :=
  match resp with
  | none => (cache, [])
  | some r =>
    if truthy r then
      match pyIn "data" r with
      | some true =>
        match r with
        | .obj fs =>
          match jgetD fs "data" .null with
          | .obj dfs =>
            match jgetD dfs "orderList" (.arr .nil) with
            | .arr ts =>
              match processAll now ts (cache, []) with
              | .ok st => (trimCache enum st.1, st.2)
              | .error st => (st.1, st.2)
            | .obj .nil => (trimCache enum cache, [])
            | .str "" => (trimCache enum cache, [])
            | _ => (cache, [])
          | _ => (cache, [])
        | _ => (cache, [])
      | _ => (cache, [])
    else (cache, [])

/-- BingXBot.fetch_trades, one cycle.  channel is the resolved delivery
sink (none when client.get_channel finds no channel: the cycle returns
before any API call, delivers nothing and leaves the cache unchanged).
Otherwise the cycle requests exactly one endpoint, the open-orders one
of get_recent_trades, whatever the HTTP layer answers, and delivers
the messages of cycleBody on the response. -/
def fetchTrades (enum : List JVal → List JVal) (channel : Option Nat)
    (secret apiKey : String) (now : Nat) (net : HttpReq → HttpOutcome)
    (cache : List JVal) : CycleOut :=
  match channel with
  | none => ⟨cache, [], []⟩
  | some _ =>
    let body := cycleBody enum now (getRecentTrades secret apiKey now net).1 cache
    ⟨body.1, body.2, [OPEN_ORDERS_EP]⟩

/-- The early-return failure condition of a poll cycle on its response:
the response is None (transport failure, non-200 status or invalid
JSON), or falsy, or its "data" membership test is not affirmative
("data" not a key of a dict response, not an element of a list
response, not a substring of a string response, or the test raising
TypeError on the remaining shapes). -/
def respFails (resp : Option JVal) : Prop :=
  match resp with
  | none => True
  | some r => truthy r = false ∨ pyIn "data" r ≠ some true

/-! ## The "!positions" command branch (BingXBot.on_message, lines 159-176) -/

/-- format_trade_message is defined with exactly one positional parameter
besides self (line 104); a call passing any extra positional argument
raises TypeError before the body runs. -/
def callFormatTradeMessage (now : Nat) (t : JVal) (extra : List String) :
    Except PyErr String :=
  if extra.isEmpty then formatTradeMessage now t else .error .typeError

/-- The loop over positions["data"]: send a formatted message for every
position with abs(float(pos.get("positionAmt", "0"))) > 0.  The call
passes the extra argument "position".  on_message installs no exception
handler, so a raised error propagates (.error). -/
def posLoop (now : Nat) : JArr → List String → Except PyErr (List String)
  | .nil, acc => .ok acc
  | .cons p tl, acc =>
    match p with
    | .obj pf =>
      match pyFloatOf (jgetD pf "positionAmt" (.str "0")) with
      | none => .error .valueError
      | some q =>
        if q.1 ≠ 0 then
          match callFormatTradeMessage now p ["position"] with
          | .ok m => posLoop now tl (acc ++ [m])
          | .error e => .error e
        else posLoop now tl acc
    | _ => .error .attributeError

/-- The "!positions" branch of on_message: given the value returned by
get_positions, the list of messages sent to the channel, or the
exception that escaped the handler.  Iterating a truthy non-list "data"
value also ends in a raised exception (dict iteration yields string
keys whose .get raises; other shapes are not iterable). -/
def positionsReply (now : Nat) (resp : Option JVal) : Except PyErr (List String) :=
  let errMsg := "Error al obtener posiciones o no hay datos"
  match resp with
  | none => .ok [errMsg]
  | some r =>
    if truthy r then
      match pyIn "data" r with
      | none => .error .typeError
      | some false => .ok [errMsg]
      | some true =>
        match r with
        | .obj fs =>
          let dataVal := jgetD fs "data" .null
          if truthy dataVal then
            match dataVal with
            | .arr xs => posLoop now xs []
            | _ => .error .typeError
          else .ok ["No hay posiciones abiertas"]
        | _ => .error .typeError
    else .ok [errMsg]

/-! ## Concrete fixtures used by the claim theorems -/

/-- The order of the end-to-end scenario:
orderId "1", BTC-USDT, price 50000, quantity 0.01, side BUY,
time 1700000000000. -/
def mockTrade : JVal :=
  jobj [("orderId", .str "1"), ("symbol", .str "BTC-USDT"), ("price", .str "50000"),
        ("quantity", .str "0.01"), ("side", .str "BUY"), ("time", .str "1700000000000")]

/-- The open-orders response wrapping the mock order. -/
def mockResp : JVal := jobj [("data", jobj [("orderList", jarr [mockTrade])])]

/-- An HTTP layer that answers every request with status 200 and the mock
open-orders response. -/
def mockNet : HttpReq → HttpOutcome := fun _ => .resp 200 (some mockResp)

/-- The message the mock order formats to. -/
def mockMsg : String :=
  "🔄 **Nueva operación de futuros detectada:**\n📊 **Símbolo:** BTC-USDT\n" ++
  "💰 **Precio:** 50000\n📈 **Cantidad:** 0.01\n📍 **Tipo:** N/A\n" ++
  "🎯 **Dirección:** Long\n⏰ **Tiempo:** <t:1700000000:F>\n"

/-- 1500 distinct identities. -/
def cacheIds : List JVal := (List.range 1500).map (fun n => JVal.int (Int.ofNat n))

/-- The state a fallible step left behind, whether or not it raised. -/
def exceptState {α : Type} : Except α α → α
  | .ok a => a
  | .error a => a

/-! ## Helper lemmas about the dict and sort operations -/

theorem dictGet_cons_of_ne {α : Type} {a : String × α} {d : List (String × α)} {k : String}
    (h : (a.1 == k) = false) : dictGet (a :: d) k = dictGet d k := by
  simp [dictGet, List.find?, h]

theorem dictGet_dictSet_self {α : Type} (d : List (String × α)) (k : String) (v : α) :
    dictGet (dictSet d k v) k = some v := by
  induction d with
  | nil => simp [dictSet, dictGet, List.find?]
  | cons a d ih =>
    cases ha : (a.1 == k) with
    | true =>
      have ha2 : a.1 = k := by simpa using ha
      have e1 : dictSet (a :: d) k v =
          (k, v) :: d.map (fun p => if p.1 == k then (k, v) else p) := by
        simp [dictSet, List.any_cons, ha, ha2]
      rw [e1]
      simp [dictGet, List.find?]
    | false =>
      have ha2 : ¬ a.1 = k := by simpa using ha
      cases hd : d.any (fun p => p.1 == k) with
      | true =>
        have e1 : dictSet (a :: d) k v =
            a :: d.map (fun p => if p.1 == k then (k, v) else p) := by
          simp [dictSet, List.any_cons, ha, ha2, hd]
        have e2 : dictSet d k v = d.map (fun p => if p.1 == k then (k, v) else p) := by
          simp [dictSet, hd]
        rw [e1, dictGet_cons_of_ne ha, ← e2]
        exact ih
      | false =>
        have e1 : dictSet (a :: d) k v = a :: (d ++ [(k, v)]) := by
          simp [dictSet, List.any_cons, ha, hd]
        have e2 : dictSet d k v = d ++ [(k, v)] := by simp [dictSet, hd]
        rw [e1, dictGet_cons_of_ne ha, ← e2]
        exact ih

theorem mem_dictKeys_dictSet {α : Type} {d : List (String × α)} {k x : String} {v : α}
    (h : x ∈ dictKeys (dictSet d k v)) : x ∈ dictKeys d ∨ x = k := by
  unfold dictSet at h
  split at h
  · simp only [dictKeys, List.map_map, List.mem_map, Function.comp] at h
    obtain ⟨p, hp, hx⟩ := h
    by_cases hk : (p.1 == k) = true
    · right
      rw [if_pos hk] at hx
      exact hx.symm
    · left
      rw [if_neg hk] at hx
      exact List.mem_map.mpr ⟨p, hp, hx⟩
  · simp only [dictKeys, List.map_append, List.mem_append, List.map_cons, List.map_nil,
      List.mem_singleton] at h
    rcases h with h | h
    · exact Or.inl h
    · exact Or.inr h

theorem not_mem_dictKeys_of_dictGet_none {α : Type} {d : List (String × α)} {k : String}
    (h : dictGet d k = none) : k ∉ dictKeys d := by
  intro hk
  simp only [dictKeys, List.mem_map] at hk
  obtain ⟨p, hp, hpk⟩ := hk
  have hfind : List.find? (fun p => p.1 == k) d = none := by
    cases hfind : List.find? (fun p => p.1 == k) d with
    | none => rfl
    | some q => simp [dictGet, hfind] at h
  rw [List.find?_eq_none] at hfind
  exact hfind p hp (by simp [hpk])

theorem mem_insertSorted {x y : String} {l : List String} :
    x ∈ insertSorted y l ↔ x = y ∨ x ∈ l := by
  induction l with
  | nil => simp [insertSorted]
  | cons a l ih =>
    simp only [insertSorted]
    split
    · simp [List.mem_cons]
    · simp only [List.mem_cons, ih]
      tauto

theorem mem_sortStr {x : String} {l : List String} : x ∈ sortStr l ↔ x ∈ l := by
  induction l with
  | nil => simp [sortStr]
  | cons a l ih =>
    show x ∈ insertSorted a (sortStr l) ↔ _
    rw [mem_insertSorted, ih, List.mem_cons]

theorem insertAll_of_nodup :
    ∀ (ids c : List JVal), (∀ x ∈ ids, x ∉ c) → ids.Nodup → insertAll c ids = c ++ ids := by
  intro ids
  induction ids with
  | nil => intro c _ _; simp [insertAll]
  | cons a ids ih =>
    intro c hdis hnd
    have ha : a ∉ c := hdis a (List.mem_cons_self a ids)
    have step : insertAll c (a :: ids) = insertAll (c ++ [a]) ids := by
      simp [insertAll, record, ha]
    rw [step, ih (c ++ [a])]
    · simp
    · intro x hx
      rw [List.mem_append, List.mem_singleton]
      rintro (hc | rfl)
      · exact hdis x (List.mem_cons_of_mem a hx) hc
      · exact (List.nodup_cons.mp hnd).1 hx
    · exact (List.nodup_cons.mp hnd).2

theorem cacheIds_nodup : cacheIds.Nodup :=
  List.Nodup.map (fun _ _ h => Int.ofNat.inj (JVal.int.inj h)) (List.nodup_range 1500)

theorem insertAll_cacheIds : insertAll [] cacheIds = cacheIds := by
  simpa using insertAll_of_nodup cacheIds [] (by simp) cacheIds_nodup

/-! ## Claim theorems -/

set_option maxRecDepth 100000 in
/-- C1: At-most-once delivery, end to end.  Feeding the mock open-orders
response (orderId "1", BTC-USDT, 50000, 0.01, BUY, time 1700000000000)
to two consecutive poll cycles delivers exactly one message in total;
that message reads Long, carries the given symbol, price and quantity,
and renders the timestamp as the chat-native token <t:1700000000:F>.
The statement holds for every set-enumeration order. -/
theorem C1_at_most_once_delivery : ∀ enum : List JVal → List JVal,
    ((fetchTrades enum (some 1) "secret" "key" 1700000100 mockNet []).sent ++
      (fetchTrades enum (some 1) "secret" "key" 1700000100 mockNet
        (fetchTrades enum (some 1) "secret" "key" 1700000100 mockNet []).cache).sent =
      [mockMsg]) ∧
    (strContains mockMsg "Long" && strContains mockMsg "BTC-USDT" &&
      strContains mockMsg "50000" && strContains mockMsg "0.01" &&
      strContains mockMsg "<t:1700000000:F>") = true :=
  fun _ => ⟨rfl, rfl⟩

/-- C9: Sink-unavailable atomicity.  When the channel cannot be resolved
the whole cycle is skipped: no API request is issued, nothing is sent,
and the dedup cache is unchanged. -/
theorem C9_sink_unavailable_atomic : ∀ (enum : List JVal → List JVal)
    (secret apiKey : String) (now : Nat) (net : HttpReq → HttpOutcome)
    (cache : List JVal),
    fetchTrades enum none secret apiKey now net cache = ⟨cache, [], []⟩ :=
  fun _ _ _ _ _ _ => rfl

/-- C10: An event whose orderId is absent or falsy is silently dropped:
the per-trade step of the poll loop neither delivers nor records it
(the state is returned unchanged).  Recording and delivery happen only
for a truthy, hashable, not-yet-seen orderId: a truthy unhashable id
(a JSON array or object) makes the membership test raise TypeError
with nothing recorded or delivered, a seen id (Python ==, so True also
matches a cached 1) is skipped, and in the recording branch exactly
that id is appended to the cache and at most one message is appended
to the sent list. -/
theorem C10_falsy_orderId_dropped (now : Nat) (st : List JVal × List String) (fs : JObj) :
    match JObj.get fs "orderId" with
    | none => processTrade now st (.obj fs) = .ok st
    | some tid =>
      if truthy tid = true then
        if hashable tid = true then
          if st.1.any (pyEq tid) = true then processTrade now st (.obj fs) = .ok st
          else
            (exceptState (processTrade now st (.obj fs))).1 = st.1 ++ [tid] ∧
              ((exceptState (processTrade now st (.obj fs))).2 = st.2 ∨
                ∃ m, (exceptState (processTrade now st (.obj fs))).2 = st.2 ++ [m])
        else processTrade now st (.obj fs) = .error st
      else processTrade now st (.obj fs) = .ok st := by
  split
  next hid => simp [processTrade, hid]
  next tid hid =>
    by_cases ht : truthy tid = true
    · rw [if_pos ht]
      by_cases hh : hashable tid = true
      · rw [if_pos hh]
        by_cases hm : st.1.any (pyEq tid) = true
        · rw [if_pos hm]
          simp [processTrade, hid, ht, hh, hm]
        · rw [if_neg hm]
          have hm2 : st.1.any (pyEq tid) = false := by simpa using hm
          cases hf : formatTradeMessage now (.obj fs) with
          | ok m =>
            refine ⟨by simp [processTrade, hid, ht, hh, hm2, hf, exceptState],
              Or.inr ⟨m, by simp [processTrade, hid, ht, hh, hm2, hf, exceptState]⟩⟩
          | error e =>
            refine ⟨by simp [processTrade, hid, ht, hh, hm2, hf, exceptState],
              Or.inl (by simp [processTrade, hid, ht, hh, hm2, hf, exceptState])⟩
      · rw [if_neg hh]
        have hh2 : hashable tid = false := by simpa using hh
        simp [processTrade, hid, ht, hh2]
    · rw [if_neg ht]
      have ht2 : truthy tid = false := by simpa using ht
      simp [processTrade, hid, ht2]

/-- C7: Missing-timestamp fallback, evaluated at the failing input.  For
a trade carrying no time field, normalized at wall-clock second
1700000000, the code renders the token <t:1700000:F>: the substituted
current time in seconds is divided by 1000 (the divisor meant for the
millisecond field), so the rendered value is the epoch seconds scaled
down by 1000 (a 1970 date), not the normalization-time epoch seconds
1700000000 the claim states. -/
theorem C7_missing_time_scaled_down :
    formatTradeMessage 1700000000 (jobj [("orderId", .str "2")]) =
      .ok ("🔄 **Nueva operación de futuros detectada:**\n📊 **Símbolo:** N/A\n" ++
        "💰 **Precio:** N/A\n📈 **Cantidad:** N/A\n📍 **Tipo:** N/A\n" ++
        "🎯 **Dirección:** Short\n⏰ **Tiempo:** <t:1700000:F>\n") ∧
    strContains ("⏰ **Tiempo:** <t:" ++ toString (1700000000 / 1000 : Nat) ++ ":F>\n")
      "<t:1700000000:F>" = false :=
  ⟨rfl, rfl⟩

/-- C8: The two-argument normalizer calls raise, evaluated at the failing
input.  format_trade_message is defined with a single trade parameter,
so the call format_trade_message(pos, "position") made by the
"!positions" handler for a position with nonzero positionAmt raises
TypeError instead of returning a formatted message; the exception
escapes the handler and nothing is sent for that position. -/
theorem C8_positions_call_raises :
    positionsReply 1700000000
      (some (jobj [("data", jarr [jobj [("positionAmt", .str "1"),
        ("symbol", .str "BTC-USDT")]])])) = .error .typeError ∧
    callFormatTradeMessage 1700000000
      (jobj [("positionAmt", .str "1"), ("symbol", .str "BTC-USDT")]) ["position"] =
      .error .typeError :=
  ⟨rfl, rfl⟩

set_option maxRecDepth 1000000 in
/-- C2, counterexample: with MAX_CACHE = 1000, insert the 1500 distinct
identities cacheIds in order and let the set enumerate in reversed
order (List.reverse is a permutation of the elements, hence a legal
enumeration of a Python set, whose iteration order is unspecified).
The trimmed cache is not the 1000 most-recently-inserted identities, so
FIFO eviction of the oldest 500 is not what the code guarantees. -/
theorem C2_counterexample :
    (List.reverse (insertAll [] cacheIds)).Perm (insertAll [] cacheIds) ∧
    trimCache List.reverse (insertAll [] cacheIds) ≠ cacheIds.drop 500 :=
  ⟨List.reverse_perm _, by rw [insertAll_cacheIds]; decide⟩

/-- C2, amended: after inserting 1500 distinct identities with
MAX_CACHE = 1000, the cache size is exactly 1000 and every surviving
identity is one of the inserted ones (no duplicates); which 1000
survive is decided by the unspecified set-enumeration order, quantified
here over every permutation-valued enumeration. -/
theorem C2_bounded_cache (enum : List JVal → List JVal)
    (henum : ∀ l : List JVal, (enum l).Perm l)
    (ids : List JVal) (hnd : ids.Nodup) (hlen : ids.length = 1500) :
    (trimCache enum (insertAll [] ids)).length = MAX_CACHE ∧
    (trimCache enum (insertAll [] ids)).Nodup ∧
    ∀ x ∈ trimCache enum (insertAll [] ids), x ∈ ids := by
  have hins : insertAll [] ids = ids := by
    simpa using insertAll_of_nodup ids [] (by simp) hnd
  rw [hins]
  have hel : (enum ids).length = 1500 := (henum ids).length_eq.trans hlen
  have htrim : trimCache enum ids = (enum ids).drop ((enum ids).length - MAX_CACHE) := by
    simp [trimCache, hlen, MAX_CACHE]
  have hnodup : (enum ids).Nodup := ((henum ids).symm).nodup hnd
  rw [htrim]
  refine ⟨?_, ?_, ?_⟩
  · rw [List.length_drop, hel]
    simp [MAX_CACHE]
  · exact hnodup.sublist (List.drop_sublist _ _)
  · intro x hx
    exact (henum ids).subset (List.drop_subset _ _ hx)

/-- C2, witness: the amended statement evaluated with the identity
enumeration on the 1500 concrete identities. -/
theorem C2_witness :
    (trimCache id (insertAll [] cacheIds)).length = MAX_CACHE ∧
    (trimCache id (insertAll [] cacheIds)).Nodup ∧
    ∀ x ∈ trimCache id (insertAll [] cacheIds), x ∈ cacheIds :=
  C2_bounded_cache id (fun l => List.Perm.refl l) cacheIds cacheIds_nodup
    (by simp [cacheIds])

set_option maxRecDepth 1000000 in
/-- C3, counterexample: sign_request serializes every key of its input,
the key "sign" included, into the hashed string; consequently the
computed signature does depend on a value stored under "sign".  At the
concrete params a=1, sign=x the hashed serialization is "a=1&sign=x",
and changing sign=x to sign=y changes the signature. -/
theorem C3_counterexample :
    (queryString [("a", PyStr.lit "1"), ("sign", PyStr.lit "x")]).s = "a=1&sign=x" ∧
    signRequest "secret" [("a", PyStr.lit "1"), ("sign", PyStr.lit "x")] ≠
      signRequest "secret" [("a", PyStr.lit "1"), ("sign", PyStr.lit "y")] :=
  ⟨rfl, by decide⟩

/-- C3, amended: make_request computes the signature before it stores the
"sign" key, so whenever the caller-supplied params do not already
contain a "sign" key (true of every call site, which build fresh
parameter dicts), the serialized, sorted key list that is hashed does
not contain "sign", and the signature stored in the issued request is
exactly the signature of the sign-free parameters. -/
theorem C3_sign_excluded_when_absent (secret apiKey endpoint : String)
    (params : List (String × PyStr)) (now : Nat) (net : HttpReq → HttpOutcome)
    (h : dictGet params "sign" = none) :
    "sign" ∉ sortStr (dictKeys (dictSet params "timestamp"
      (PyStr.lit (toString (now * 1000))))) ∧
    dictGet (makeRequestT secret apiKey endpoint params now net).2.qparams "sign" =
      some (PyStr.lit (signRequest secret
        (dictSet params "timestamp" (PyStr.lit (toString (now * 1000)))))) := by
  have hnk : "sign" ∉ dictKeys params := not_mem_dictKeys_of_dictGet_none h
  have hkey : "sign" ∉ dictKeys (dictSet params "timestamp"
      (PyStr.lit (toString (now * 1000)))) := by
    intro hmem
    rcases mem_dictKeys_dictSet hmem with hk | hk
    · exact hnk hk
    · exact absurd hk (by decide)
  exact ⟨fun hmem => hkey (mem_sortStr.mp hmem), dictGet_dictSet_self _ _ _⟩

/-- C3, witness: the amended statement evaluated at the open-orders
parameter dict of one call site. -/
theorem C3_witness :
    "sign" ∉ sortStr (dictKeys (dictSet [("symbol", PyStr.lit "BTC-USDT")] "timestamp"
      (PyStr.lit (toString (5 * 1000))))) ∧
    dictGet (makeRequestT "secret" "key" OPEN_ORDERS_EP [("symbol", PyStr.lit "BTC-USDT")] 5
        (fun _ => HttpOutcome.raised)).2.qparams "sign" =
      some (PyStr.lit (signRequest "secret" (dictSet [("symbol", PyStr.lit "BTC-USDT")]
        "timestamp" (PyStr.lit (toString (5 * 1000)))))) :=
  C3_sign_excluded_when_absent "secret" "key" OPEN_ORDERS_EP
    [("symbol", PyStr.lit "BTC-USDT")] 5 (fun _ => HttpOutcome.raised) rfl

/-- C4, counterexample: when the signer fails internally (here: a
parameter value whose UTF-8 encoding raises) it returns the empty
string, but the client performs no empty-signature check: the request
handed to the HTTP layer carries the parameter sign= with the empty
string as value, refuting that no such request is ever issued. -/
theorem C4_counterexample :
    signRequest "secret" (dictSet [("a", PyStr.mk "x" false)] "timestamp"
      (PyStr.lit "5000")) = "" ∧
    dictGet (makeRequestT "secret" "key" OPEN_ORDERS_EP [("a", PyStr.mk "x" false)] 5
      (fun _ => HttpOutcome.raised)).2.qparams "sign" = some (PyStr.lit "") :=
  ⟨rfl, rfl⟩

/-- C4, amended: on an internal signing failure (an unencodable
serialized parameter string) the signer returns the empty string, and
the API client does not abort: the request it hands to the HTTP layer
carries sign set to the empty string, and the returned value is still
whatever the HTTP layer yields for that request. -/
theorem C4_no_abort_on_empty_signature (secret apiKey endpoint : String)
    (params : List (String × PyStr)) (now : Nat) (net : HttpReq → HttpOutcome)
    (h : (queryString (dictSet params "timestamp"
      (PyStr.lit (toString (now * 1000))))).enc = false) :
    signRequest secret (dictSet params "timestamp"
      (PyStr.lit (toString (now * 1000)))) = "" ∧
    dictGet (makeRequestT secret apiKey endpoint params now net).2.qparams "sign" =
      some (PyStr.lit "") ∧
    (makeRequestT secret apiKey endpoint params now net).1 =
      handleOutcome (net (makeRequestT secret apiKey endpoint params now net).2) := by
  have hs : signRequest secret (dictSet params "timestamp"
      (PyStr.lit (toString (now * 1000)))) = "" := by
    simp [signRequest, h]
  refine ⟨hs, ?_, rfl⟩
  have key2 : (makeRequestT secret apiKey endpoint params now net).2.qparams =
      dictSet (dictSet params "timestamp" (PyStr.lit (toString (now * 1000)))) "sign"
        (PyStr.lit (signRequest secret
          (dictSet params "timestamp" (PyStr.lit (toString (now * 1000)))))) := rfl
  rw [key2, hs]
  exact dictGet_dictSet_self _ _ _

/-- C4, witness: the amended statement evaluated at a parameter dict
holding one unencodable value. -/
theorem C4_witness :
    signRequest "secret" (dictSet [("a", PyStr.mk "x" false)] "timestamp"
      (PyStr.lit (toString (5 * 1000)))) = "" ∧
    dictGet (makeRequestT "secret" "key" OPEN_ORDERS_EP [("a", PyStr.mk "x" false)] 5
      (fun _ => HttpOutcome.raised)).2.qparams "sign" = some (PyStr.lit "") ∧
    (makeRequestT "secret" "key" OPEN_ORDERS_EP [("a", PyStr.mk "x" false)] 5
      (fun _ => HttpOutcome.raised)).1 =
      handleOutcome ((fun _ => HttpOutcome.raised)
        (makeRequestT "secret" "key" OPEN_ORDERS_EP [("a", PyStr.mk "x" false)] 5
          (fun _ => HttpOutcome.raised)).2) :=
  C4_no_abort_on_empty_signature "secret" "key" OPEN_ORDERS_EP
    [("a", PyStr.mk "x" false)] 5 (fun _ => HttpOutcome.raised) rfl

/-- C5, counterexample: a poll cycle requests exactly one endpoint, the
open-orders one; the positions and TP/SL endpoints are not called by
the cycle, refuting that every cycle calls the API client once for each
of the three tracked endpoint kinds. -/
theorem C5_counterexample :
    (fetchTrades id (some 1) "s" "k" 1700 (fun _ => HttpOutcome.raised) []).apiCalls =
      [OPEN_ORDERS_EP] ∧
    POSITIONS_EP ∉
      (fetchTrades id (some 1) "s" "k" 1700 (fun _ => HttpOutcome.raised) []).apiCalls ∧
    TPSL_EP ∉
      (fetchTrades id (some 1) "s" "k" 1700 (fun _ => HttpOutcome.raised) []).apiCalls := by
  refine ⟨rfl, ?_, ?_⟩ <;> decide

/-- C5, amended: every poll cycle with a resolved channel calls the API
client for exactly one endpoint kind - open orders - whatever the HTTP
layer answers (positions and TP/SL are fetched only by the chat
commands); and whenever the open-orders response fails (None after a
transport error, a non-200 status or invalid JSON; or falsy; or
without an affirmative "data" membership test) the cycle is
empty-handed without stopping anything: no message is sent and the
cache is unchanged. -/
theorem C5_single_endpoint_isolated (enum : List JVal → List JVal) (ch : Nat)
    (secret apiKey : String) (now : Nat) (net : HttpReq → HttpOutcome)
    (cache : List JVal) :
    (fetchTrades enum (some ch) secret apiKey now net cache).apiCalls = [OPEN_ORDERS_EP] ∧
    (respFails (getRecentTrades secret apiKey now net).1 →
      fetchTrades enum (some ch) secret apiKey now net cache =
        ⟨cache, [], [OPEN_ORDERS_EP]⟩) := by
  refine ⟨rfl, fun h => ?_⟩
  have hbody : cycleBody enum now (getRecentTrades secret apiKey now net).1 cache =
      (cache, []) := by
    rcases hr : (getRecentTrades secret apiKey now net).1 with _ | r
    · simp [cycleBody]
    · rw [hr] at h
      simp only [respFails] at h
      rcases h with hf | hp
      · simp [cycleBody, hf]
      · rcases hpi : pyIn "data" r with _ | b
        · by_cases ht : truthy r = true
          · simp [cycleBody, ht, hpi]
          · have ht2 : truthy r = false := by simpa using ht
            simp [cycleBody, ht2]
        · cases b with
          | true => exact absurd hpi hp
          | false =>
            by_cases ht : truthy r = true
            · simp [cycleBody, ht, hpi]
            · have ht2 : truthy r = false := by simpa using ht
              simp [cycleBody, ht2]
  show (⟨(cycleBody enum now (getRecentTrades secret apiKey now net).1 cache).1,
         (cycleBody enum now (getRecentTrades secret apiKey now net).1 cache).2,
         [OPEN_ORDERS_EP]⟩ : CycleOut) = ⟨cache, [], [OPEN_ORDERS_EP]⟩
  rw [hbody]

/-- C5, witness: the amended statement at concrete inputs, exercising
both a transport-failure response and a 200 response that lacks a
"data" key. -/
theorem C5_witness :
    (fetchTrades id (some 1) "s" "k" 1700 (fun _ => HttpOutcome.raised) []).apiCalls =
      [OPEN_ORDERS_EP] ∧
    fetchTrades id (some 1) "s" "k" 1700 (fun _ => HttpOutcome.raised) [] =
      ⟨[], [], [OPEN_ORDERS_EP]⟩ ∧
    fetchTrades id (some 1) "s" "k" 1700
        (fun _ => HttpOutcome.resp 200 (some (jobj [("code", JVal.int 0)]))) [] =
      ⟨[], [], [OPEN_ORDERS_EP]⟩ :=
  ⟨(C5_single_endpoint_isolated id 1 "s" "k" 1700 (fun _ => HttpOutcome.raised) []).1,
   (C5_single_endpoint_isolated id 1 "s" "k" 1700 (fun _ => HttpOutcome.raised) []).2
     True.intro,
   (C5_single_endpoint_isolated id 1 "s" "k" 1700
       (fun _ => HttpOutcome.resp 200 (some (jobj [("code", JVal.int 0)]))) []).2
     (Or.inr (by decide))⟩

/-- C6, counterexample: make_request collapses every failure to None.
An HTTP 500 response with body A, an HTTP 404 response with body B and
a raised transport error all produce the same return value None, which
carries no status, body or cause - the failure kinds are not
distinguishable in the returned value. -/
theorem C6_counterexample :
    makeRequest "s" "k" "e" [] 5 (fun _ => HttpOutcome.resp 500 (some (JVal.str "A"))) =
      makeRequest "s" "k" "e" [] 5 (fun _ => HttpOutcome.resp 404 (some (JVal.str "B"))) ∧
    makeRequest "s" "k" "e" [] 5 (fun _ => HttpOutcome.raised) =
      makeRequest "s" "k" "e" [] 5 (fun _ => HttpOutcome.resp 500 (some (JVal.str "A"))) ∧
    makeRequest "s" "k" "e" [] 5 (fun _ => HttpOutcome.resp 500 (some (JVal.str "A"))) =
      none :=
  ⟨rfl, rfl, rfl⟩

/-- C6, amended: on HTTP 200 with a JSON body the parsed JSON is
returned; every failure - a raised transport error, a 200 body that is
not valid JSON, or any non-200 status - returns None, with no
distinguishing information. -/
theorem C6_failures_collapse_to_none (secret apiKey endpoint : String)
    (params : List (String × PyStr)) (now : Nat) (net : HttpReq → HttpOutcome) :
    (∀ j : JVal, net (makeRequestT secret apiKey endpoint params now net).2 =
        .resp 200 (some j) →
      makeRequest secret apiKey endpoint params now net = some j) ∧
    (net (makeRequestT secret apiKey endpoint params now net).2 = .raised →
      makeRequest secret apiKey endpoint params now net = none) ∧
    (net (makeRequestT secret apiKey endpoint params now net).2 = .resp 200 none →
      makeRequest secret apiKey endpoint params now net = none) ∧
    (∀ (s : Nat) (b : Option JVal), s ≠ 200 →
      net (makeRequestT secret apiKey endpoint params now net).2 = .resp s b →
      makeRequest secret apiKey endpoint params now net = none) := by
  have key : makeRequest secret apiKey endpoint params now net =
      handleOutcome (net (makeRequestT secret apiKey endpoint params now net).2) := rfl
  refine ⟨fun j h => by rw [key, h]; rfl,
    fun h => by rw [key, h]; rfl,
    fun h => by rw [key, h]; rfl,
    fun s b hs h => by rw [key, h]; simp [handleOutcome, hs]⟩

/-- C6, witness: the 200-with-JSON conjunct of the amended statement at
concrete inputs. -/
theorem C6_witness :
    makeRequest "s" "k" "e" [] 5 (fun _ => HttpOutcome.resp 200 (some (JVal.str "ok"))) =
      some (JVal.str "ok") :=
  (C6_failures_collapse_to_none "s" "k" "e" [] 5
    (fun _ => HttpOutcome.resp 200 (some (JVal.str "ok")))).1 (JVal.str "ok") rfl
